import Mathlib

/-!
# Verification of the graph-editor interaction core

A shallow embedding of the `iced-graph-editor` widget core
(`src/widget/graph/editor.rs`, `src/widget/graph/node.rs`) and of the host
application's delete-node update (`example/src/main.rs`), over exact rational
arithmetic in place of `f32`.

The embedding keeps the structure of the Rust source: per-node and editor
interaction state machines, the event handlers, the cursor/point transforms,
and the edge-connector geometry of the draw pass.  Children of the editor are
abstracted by the folded event status they report, and the opaque node content
by the status function it returns, exactly as the source treats them.
-/

namespace GraphEditor

/-- 2D vector (`iced::Vector`), with exact rational components. -/
@[ext]
structure Vector where
  x : ℚ
  y : ℚ
deriving DecidableEq, Repr

instance : Add Vector := ⟨fun a b => ⟨a.x + b.x, a.y + b.y⟩⟩

instance : Sub Vector := ⟨fun a b => ⟨a.x - b.x, a.y - b.y⟩⟩

/-- `iced::Vector::default()` is the zero vector. -/
instance : Zero Vector := ⟨⟨0, 0⟩⟩

/-- `iced::Vector` multiplied by a scalar on the right (`Mul<f32>`). -/
instance : HMul Vector ℚ Vector := ⟨fun v s => ⟨v.x * s, v.y * s⟩⟩

theorem Vector.add_def (a b : Vector) : a + b = ⟨a.x + b.x, a.y + b.y⟩ := rfl

theorem Vector.sub_def (a b : Vector) : a - b = ⟨a.x - b.x, a.y - b.y⟩ := rfl

theorem Vector.zero_def : (0 : Vector) = ⟨0, 0⟩ := rfl

theorem Vector.zero_x : (0 : Vector).x = 0 := rfl

theorem Vector.zero_y : (0 : Vector).y = 0 := rfl

theorem Vector.hmul_def (v : Vector) (s : ℚ) : v * s = ⟨v.x * s, v.y * s⟩ := rfl

/-- 2D point (`iced::Point`), with exact rational components. -/
@[ext]
structure Point where
  x : ℚ
  y : ℚ
deriving DecidableEq, Repr

/-- `iced::Point + iced::Vector`. -/
instance : HAdd Point Vector Point := ⟨fun p v => ⟨p.x + v.x, p.y + v.y⟩⟩

/-- `iced::Point - iced::Vector`. -/
instance : HSub Point Vector Point := ⟨fun p v => ⟨p.x - v.x, p.y - v.y⟩⟩

/-- `iced::Point - iced::Point`, yielding a `Vector`. -/
instance : HSub Point Point Vector := ⟨fun a b => ⟨a.x - b.x, a.y - b.y⟩⟩

theorem Point.add_vector_def (p : Point) (v : Vector) :
    p + v = ⟨p.x + v.x, p.y + v.y⟩ := rfl

theorem Point.sub_vector_def (p : Point) (v : Vector) :
    p - v = ⟨p.x - v.x, p.y - v.y⟩ := rfl

theorem Point.sub_point_def (a b : Point) : a - b = (⟨a.x - b.x, a.y - b.y⟩ : Vector) := rfl

/-- Axis-aligned rectangle (`iced::Rectangle`): top-left corner plus size. -/
structure Rectangle where
  x : ℚ
  y : ℚ
  width : ℚ
  height : ℚ
deriving DecidableEq, Repr

/-- `iced::Rectangle::contains`: closed on the top/left edge, open on the
bottom/right edge.  All concrete inputs used below lie strictly inside or
strictly outside, so the boundary convention is never load-bearing. -/
def Rectangle.contains (r : Rectangle) (p : Point) : Bool :=
  decide (r.x ≤ p.x) && decide (p.x < r.x + r.width) &&
    decide (r.y ≤ p.y) && decide (p.y < r.y + r.height)

/-- `iced::Rectangle::center_y`. -/
def Rectangle.center_y (r : Rectangle) : ℚ :=
  r.y + r.height / 2

/-- `iced::Rectangle + iced::Vector` translates the rectangle. -/
instance : HAdd Rectangle Vector Rectangle :=
  ⟨fun r v => ⟨r.x + v.x, r.y + v.y, r.width, r.height⟩⟩

theorem Rectangle.translate_def (r : Rectangle) (v : Vector) :
    r + v = ⟨r.x + v.x, r.y + v.y, r.width, r.height⟩ := rfl

/-- Mouse buttons (`iced::mouse::Button`, the variants the widgets inspect). -/
inductive Button
  | Left
  | Right
  | Middle
deriving DecidableEq, Repr

/-- Input events as seen by `on_event`.  `WheelScrolled` carries the vertical
delta `y`; the source treats `ScrollDelta::Lines` and `ScrollDelta::Pixels`
identically.  `Other` stands for every non-mouse event. -/
inductive MouseEvent
  | CursorMoved (position : Point)
  | ButtonPressed (button : Button)
  | ButtonReleased (button : Button)
  | WheelScrolled (y : ℚ)
  | Other
deriving DecidableEq, Repr

/-- `iced_native::event::Status`. -/
inductive Status
  | Ignored
  | Captured
deriving DecidableEq, Repr

/-- `iced_native::event::Status::merge`. -/
def Status.merge : Status → Status → Status
  | Status.Ignored, Status.Ignored => Status.Ignored
  | _, _ => Status.Captured

/-- The editor's emitted events (`editor.rs` `Event`). -/
inductive Event
  | NodeMoved (index : ℕ) (offset : Vector)
  | Scaled (scaling : ℚ) (translation : Vector)
  | Translated (translation : Vector)
deriving DecidableEq, Repr

/-- Per-node interaction state (`node.rs` `State`). -/
inductive State
  | Idle
  | Hovered
  | Translating (started_at : Point) (offset : Vector)
deriving DecidableEq, Repr

/-- `node.rs` `State::adjusted_bounds`: the layout bounds, shifted by the live
drag offset while `Translating`, unshifted otherwise. -/
def State.adjusted_bounds : State → Rectangle → Rectangle
  | State.Idle, bounds => bounds
  | State.Hovered, bounds => bounds
  | State.Translating _ offset, bounds => bounds + offset

/-- The two rectangles of a node's layout subtree that `node.rs` `on_event`
reads: the node's outer bounds and its inner content bounds. -/
structure NodeLayout where
  bounds : Rectangle
  content_bounds : Rectangle
deriving DecidableEq, Repr

/-- `node.rs` `layout` for a content box of the given size: the content is
padded by `[20, 5, 5, 5]` (top, right, bottom, left) and the padded box is
translated by the node's static `offset`. -/
def nodeLayoutOf (offset : Vector) (content_width content_height : ℚ) : NodeLayout :=
  { bounds := ⟨offset.x, offset.y, content_width + 10, content_height + 25⟩
    content_bounds := ⟨offset.x + 5, offset.y + 20, content_width, content_height⟩ }

/-- `node.rs` `on_event`.  `self_offset` is the node's static offset,
`content_status` abstracts the wrapped content widget by the event status it
returns, `cursor_position` is the editor-transformed cursor, and `index` is
the node's position in the editor's list.  Returns the new state, the events
published to the shell, and the event status. -/
def node_on_event (self_offset : Vector) (content_status : MouseEvent → Point → Status)
    (layout : NodeLayout) (cursor_position : Point) (index : ℕ)
    (state : State) (event : MouseEvent) : State × List Event × Status :=
  let bounds := layout.bounds
  let content_bounds := layout.content_bounds
  let in_bounds := bounds.contains cursor_position && !content_bounds.contains cursor_position
  match state with
  | State.Translating started_at offset =>
    match event with
    | MouseEvent.CursorMoved _ =>
        (State.Translating started_at (cursor_position - started_at), [], Status.Captured)
    | MouseEvent.ButtonReleased Button.Left =>
        (if in_bounds then State.Hovered else State.Idle,
          [Event.NodeMoved index (self_offset + offset)], Status.Ignored)
    | _ => (State.Translating started_at offset, [], Status.Ignored)
  | _ =>
    match content_status event cursor_position with
    | Status.Captured => (state, [], Status.Captured)
    | Status.Ignored =>
      match event, state with
      | MouseEvent.CursorMoved _, State.Idle =>
          if in_bounds then (State.Hovered, [], Status.Captured)
          else (state, [], Status.Ignored)
      | MouseEvent.CursorMoved _, State.Hovered =>
          if !in_bounds then (State.Idle, [], Status.Captured)
          else (state, [], Status.Ignored)
      | MouseEvent.ButtonPressed Button.Left, State.Hovered =>
          (State.Translating cursor_position 0, [], Status.Captured)
      | _, _ => (state, [], Status.Ignored)

/-- The editor's own interaction state (`editor.rs` `Interaction`). -/
inductive Interaction
  | Idle
  | Translating (started_at : Point) (offset : Vector)
deriving DecidableEq, Repr

/-- `editor.rs` `Interaction::offset`. -/
def Interaction.offset : Interaction → Vector
  | Interaction.Idle => 0
  | Interaction.Translating _ offset => offset

/-- `Editor::MIN_SCALING`. -/
def MIN_SCALING : ℚ := 1 / 10

/-- `Editor::MAX_SCALING`. -/
def MAX_SCALING : ℚ := 5

/-- `editor.rs` `transform_cursor`: the inverse of the canvas transform
`p ↦ (p + translation) * scaling`, mapping a raw screen cursor into
canvas-local coordinates. -/
def transform_cursor (scaling : ℚ) (translation : Vector) (cursor_position : Point) : Point :=
  ⟨cursor_position.x / scaling - translation.x, cursor_position.y / scaling - translation.y⟩

/-- The new scale computed by the wheel-scroll arm of `editor.rs` `on_event`:
`(scaling * (1 + y / 15)).max(MIN_SCALING).min(MAX_SCALING)`. -/
def wheel_new_scaling (scaling y : ℚ) : ℚ :=
  min (max (scaling * (1 + y / 15)) MIN_SCALING) MAX_SCALING

/-- The new translation computed by the wheel-scroll arm of `editor.rs`
`on_event`: `translation - cursor * (new_scaling - scaling) / scaling²`,
componentwise. -/
def wheel_new_translation (scaling : ℚ) (translation : Vector) (cursor_position : Point)
    (y : ℚ) : Vector :=
  let factor := wheel_new_scaling scaling y - scaling
  translation -
    ⟨cursor_position.x * factor / (scaling * scaling),
      cursor_position.y * factor / (scaling * scaling)⟩

/-- The editor's own gesture recognizer: the `match event` block of
`editor.rs` `on_event` that runs once no child consumed the event and the raw
cursor is inside the editor's bounds.  Returns the new interaction state, the
published events, and the event status. -/
def editor_own_event (scaling : ℚ) (translation : Vector) (interaction : Interaction)
    (event : MouseEvent) (cursor_position : Point) : Interaction × List Event × Status :=
  match event with
  | MouseEvent.ButtonPressed Button.Left =>
      (Interaction.Translating cursor_position 0, [], Status.Captured)
  | MouseEvent.ButtonReleased Button.Left =>
      match interaction with
      | Interaction.Translating _ offset =>
          (Interaction.Idle, [Event.Translated (translation + offset)], Status.Captured)
      | Interaction.Idle => (interaction, [], Status.Ignored)
  | MouseEvent.CursorMoved position =>
      match interaction with
      | Interaction.Translating started_at _ =>
          (Interaction.Translating started_at ((position - started_at) * (1 / scaling)),
            [], Status.Captured)
      | Interaction.Idle => (interaction, [], Status.Ignored)
  | MouseEvent.WheelScrolled y =>
      if (y < 0 ∧ MIN_SCALING < scaling) ∨ (0 < y ∧ scaling < MAX_SCALING) then
        (interaction,
          [Event.Scaled (wheel_new_scaling scaling y)
            (wheel_new_translation scaling translation cursor_position y)],
          Status.Captured)
      else (interaction, [], Status.Ignored)
  | _ => (interaction, [], Status.Ignored)

/-- `editor.rs` `on_event`, with the children abstracted by the folded status
`child_status` they report: the editor's own recognizer runs exactly when the
children ignored the event and the raw cursor is inside the editor's bounds;
otherwise the editor's interaction state is untouched, nothing is published,
and the children's status is propagated. -/
def editor_on_event (scaling : ℚ) (translation : Vector) (bounds : Rectangle)
    (child_status : Status) (interaction : Interaction)
    (event : MouseEvent) (cursor_position : Point) : Interaction × List Event × Status :=
  if child_status = Status.Ignored ∧ bounds.contains cursor_position then
    editor_own_event scaling translation interaction event cursor_position
  else
    (interaction, [], child_status)

/-- Run a node's `on_event` over a sequence of `(event, transformed cursor)`
pairs, threading the state and concatenating the published events. -/
def run_node_events (self_offset : Vector) (content_status : MouseEvent → Point → Status)
    (layout : NodeLayout) (index : ℕ)
    (state : State) : List (MouseEvent × Point) → State × List Event
  | [] => (state, [])
  | (event, cursor) :: rest =>
      let step := node_on_event self_offset content_status layout cursor index state event
      let tail := run_node_events self_offset content_status layout index step.1 rest
      (tail.1, step.2.1 ++ tail.2)

/-- Run the editor's `on_event` over a sequence of
`(event, raw cursor, folded child status)` triples, threading the interaction
state and concatenating the published events. -/
def run_editor_events (scaling : ℚ) (translation : Vector) (bounds : Rectangle)
    (interaction : Interaction) :
    List (MouseEvent × Point × Status) → Interaction × List Event
  | [] => (interaction, [])
  | (event, cursor, child_status) :: rest =>
      let step := editor_on_event scaling translation bounds child_status interaction
        event cursor
      let tail := run_editor_events scaling translation bounds step.1 rest
      (tail.1, step.2.1 ++ tail.2)

/-- The `pad` closure of `editor.rs` `draw`: shrink a rectangle by `padding`
on every side. -/
def pad (rect : Rectangle) (padding : ℚ) : Rectangle :=
  ⟨rect.x + padding, rect.y + padding, rect.width - padding * 2, rect.height - padding * 2⟩

/-- The per-node data the edge-drawing pass of `editor.rs` `draw` reads: the
node's `edges` list, its layout bounds, and its persisted interaction state. -/
structure NodeRender where
  edges : List ℕ
  bounds : Rectangle
  state : State
deriving DecidableEq, Repr

/-- One drawn connector curve: the source/target indices, the cubic's frame-
local start and end points, and its two control points.  (Stroke width and
color are styling and carry no geometry, so they are not modelled.) -/
structure Connector where
  from_index : ℕ
  to_index : ℕ
  start : Point
  end_point : Point
  control_a : Point
  control_b : Point
deriving DecidableEq, Repr

/-- The `transform_point` closure of `editor.rs` `draw`: translate a
canvas-local point by the committed translation plus the live pan offset,
scale it, and re-express it relative to the frame's origin. -/
def transform_point (translation pan_offset : Vector) (scaling : ℚ)
    (frame_offset : Vector) (point : Point) : Point :=
  let translated := point + translation + pan_offset
  (⟨translated.x * scaling, translated.y * scaling⟩ : Point) - frame_offset

/-- The connector geometry computed by `editor.rs` `draw` for one edge, given
the already-adjusted bounds of its source and target nodes. -/
def mk_connector (scaling : ℚ) (translation pan_offset frame_offset : Vector)
    (from_index to_index : ℕ) (from_bounds to_bounds : Rectangle) : Connector :=
  let start_untransformed : Point := ⟨from_bounds.x + from_bounds.width, from_bounds.center_y⟩
  let start := transform_point translation pan_offset scaling frame_offset start_untransformed
  let end_untransformed : Point := ⟨to_bounds.x, to_bounds.center_y⟩
  let end_point := transform_point translation pan_offset scaling frame_offset end_untransformed
  let control_scale := max ((end_untransformed.x - start_untransformed.x) / 2) 30 * scaling
  { from_index := from_index
    to_index := to_index
    start := start
    end_point := end_point
    control_a := ⟨start.x + control_scale, start.y⟩
    control_b := ⟨end_point.x - control_scale, end_point.y⟩ }

/-- The connectors drawn for one source node: one per `edges` entry whose
target index resolves in the node list, each on the adjusted bounds of its
endpoints. -/
def connectors_from (nodes : List NodeRender) (scaling : ℚ)
    (translation pan_offset frame_offset : Vector)
    (from_index : ℕ) (from_node : NodeRender) : List Connector :=
  from_node.edges.filterMap fun to_index =>
    nodes[to_index]?.map fun to_node =>
      mk_connector scaling translation pan_offset frame_offset from_index to_index
        (from_node.state.adjusted_bounds from_node.bounds)
        (to_node.state.adjusted_bounds to_node.bounds)

/-- The edge-drawing pass of `editor.rs` `draw`: the editor's bounds are
padded by 1, the frame is anchored at the padded bounds' origin, and every
node's `edges` entries are drawn in list order. -/
def draw_connectors (editor_bounds : Rectangle) (scaling : ℚ) (translation : Vector)
    (interaction : Interaction) (nodes : List NodeRender) : List Connector :=
  let padded_bounds := pad editor_bounds 1
  let frame_offset : Vector := ⟨padded_bounds.x, padded_bounds.y⟩
  (nodes.enum.map fun fi =>
    connectors_from nodes scaling translation interaction.offset frame_offset fi.1 fi.2).flatten

/-- A node of the host application's model (`example/src/main.rs` `Node`):
its static offset and its outgoing edge targets.  The content kind is opaque
to the deletion law and is not modelled. -/
structure HostNode where
  offset : Vector
  edges : List ℕ
deriving DecidableEq, Repr

/-- The host's `Message::DeleteNode(index)` update (`example/src/main.rs`):
remove the node at `index`, then rewrite every remaining node's `edges` by
dropping entries equal to `index` and decrementing entries greater than
`index`. -/
def delete_node (nodes : List HostNode) (index : ℕ) : List HostNode :=
  (nodes.eraseIdx index).map fun node =>
    { node with
        edges := (node.edges.filter fun i => i ≠ index).map fun i =>
          if index < i then i - 1 else i }

/-- The renumbering law stated entrywise, following the spec's words: an
entry equal to the removed index is dropped, an entry greater than it is
decremented by one, and any other entry is unchanged. -/
def renumber_entry (index i : ℕ) : Option ℕ :=
  if i = index then none
  else if index < i then some (i - 1)
  else some i

theorem min_scaling_lt_max_scaling : MIN_SCALING < MAX_SCALING := by
  norm_num [MIN_SCALING, MAX_SCALING]

/-- The committed scale is bounded below by `MIN_SCALING`. -/
theorem min_scaling_le_wheel_new_scaling (scaling y : ℚ) :
    MIN_SCALING ≤ wheel_new_scaling scaling y :=
  le_min (le_max_right _ _) min_scaling_lt_max_scaling.le

/-- The committed scale is bounded above by `MAX_SCALING`. -/
theorem wheel_new_scaling_le_max_scaling (scaling y : ℚ) :
    wheel_new_scaling scaling y ≤ MAX_SCALING :=
  min_le_right _ _

/-- `max`-then-`min`, as the source computes it, agrees with the spec's
`clamp` since `MIN_SCALING ≤ MAX_SCALING`. -/
theorem wheel_new_scaling_eq_clamp (scaling y : ℚ) :
    wheel_new_scaling scaling y =
      max MIN_SCALING (min (scaling * (1 + y / 15)) MAX_SCALING) := by
  rw [wheel_new_scaling, max_min_distrib_left, max_comm MIN_SCALING,
    max_eq_right min_scaling_lt_max_scaling.le]

/-- C3: every `Scaled` event emitted by a wheel scroll carries a scale equal
to `clamp(scale * (1 + y/15), 0.1, 5.0)`, which lies in `[0.1, 5.0]`; at a
bound, a further scroll in that direction emits nothing, while a scroll in
the opposite direction emits exactly one `Scaled` event. -/
theorem claim_c3 :
    (∀ (scaling : ℚ) (translation : Vector) (interaction : Interaction)
        (cursor : Point) (y : ℚ) (e : Event),
      e ∈ (editor_own_event scaling translation interaction
            (MouseEvent.WheelScrolled y) cursor).2.1 →
      e = Event.Scaled (wheel_new_scaling scaling y)
            (wheel_new_translation scaling translation cursor y) ∧
        MIN_SCALING ≤ wheel_new_scaling scaling y ∧
        wheel_new_scaling scaling y ≤ MAX_SCALING ∧
        wheel_new_scaling scaling y =
          max MIN_SCALING (min (scaling * (1 + y / 15)) MAX_SCALING)) ∧
    (∀ (translation : Vector) (interaction : Interaction) (cursor : Point) (y : ℚ),
      0 < y →
      (editor_own_event MAX_SCALING translation interaction
        (MouseEvent.WheelScrolled y) cursor).2.1 = []) ∧
    (∀ (translation : Vector) (interaction : Interaction) (cursor : Point) (y : ℚ),
      y < 0 →
      (editor_own_event MIN_SCALING translation interaction
        (MouseEvent.WheelScrolled y) cursor).2.1 = []) ∧
    (∀ (translation : Vector) (interaction : Interaction) (cursor : Point) (y : ℚ),
      y < 0 →
      (editor_own_event MAX_SCALING translation interaction
        (MouseEvent.WheelScrolled y) cursor).2.1 =
        [Event.Scaled (wheel_new_scaling MAX_SCALING y)
          (wheel_new_translation MAX_SCALING translation cursor y)]) ∧
    (∀ (translation : Vector) (interaction : Interaction) (cursor : Point) (y : ℚ),
      0 < y →
      (editor_own_event MIN_SCALING translation interaction
        (MouseEvent.WheelScrolled y) cursor).2.1 =
        [Event.Scaled (wheel_new_scaling MIN_SCALING y)
          (wheel_new_translation MIN_SCALING translation cursor y)]) := by
  refine ⟨?_, ?_, ?_, ?_, ?_⟩
  · intro scaling translation interaction cursor y e he
    rw [editor_own_event] at he
    split at he
    · simp only [List.mem_singleton] at he
      exact ⟨he, min_scaling_le_wheel_new_scaling _ _,
        wheel_new_scaling_le_max_scaling _ _, wheel_new_scaling_eq_clamp _ _⟩
    · simp at he
  · intro translation interaction cursor y hy
    rw [editor_own_event, if_neg]
    rintro (⟨h1, _⟩ | ⟨_, h2⟩)
    · linarith
    · exact absurd h2 (lt_irrefl _)
  · intro translation interaction cursor y hy
    rw [editor_own_event, if_neg]
    rintro (⟨_, h1⟩ | ⟨h2, _⟩)
    · exact absurd h1 (lt_irrefl _)
    · linarith
  · intro translation interaction cursor y hy
    rw [editor_own_event, if_pos]
    exact Or.inl ⟨hy, min_scaling_lt_max_scaling⟩
  · intro translation interaction cursor y hy
    rw [editor_own_event, if_pos]
    exact Or.inr ⟨hy, min_scaling_lt_max_scaling⟩

/-- Witness for C3 at concrete inputs: a scroll up at the top bound emits
nothing, a scroll down there emits exactly one `Scaled`, and the `Scaled`
event emitted at scale 1 with `y = 15` carries the clamped scale. -/
theorem claim_c3_witness :
    ((0 : ℚ) < 1 ∧
      (editor_own_event MAX_SCALING 0 Interaction.Idle
        (MouseEvent.WheelScrolled 1) ⟨0, 0⟩).2.1 = []) ∧
    ((-1 : ℚ) < 0 ∧
      (editor_own_event MAX_SCALING 0 Interaction.Idle
        (MouseEvent.WheelScrolled (-1)) ⟨0, 0⟩).2.1 =
        [Event.Scaled (wheel_new_scaling MAX_SCALING (-1))
          (wheel_new_translation MAX_SCALING 0 ⟨0, 0⟩ (-1))]) ∧
    (Event.Scaled (wheel_new_scaling 1 15) (wheel_new_translation 1 0 ⟨15, 0⟩ 15) =
        Event.Scaled (wheel_new_scaling 1 15) (wheel_new_translation 1 0 ⟨15, 0⟩ 15) ∧
      MIN_SCALING ≤ wheel_new_scaling 1 15 ∧
      wheel_new_scaling 1 15 ≤ MAX_SCALING ∧
      wheel_new_scaling 1 15 =
        max MIN_SCALING (min ((1 : ℚ) * (1 + 15 / 15)) MAX_SCALING)) :=
  ⟨⟨by norm_num, claim_c3.2.1 0 Interaction.Idle ⟨0, 0⟩ 1 (by norm_num)⟩,
    ⟨by norm_num, claim_c3.2.2.2.1 0 Interaction.Idle ⟨0, 0⟩ (-1) (by norm_num)⟩,
    claim_c3.1 1 0 Interaction.Idle ⟨15, 0⟩ 15 _
      (by
        rw [editor_own_event, if_pos]
        · exact List.mem_singleton.mpr rfl
        · exact Or.inr ⟨by norm_num, by norm_num [MAX_SCALING]⟩)⟩

/-- C1 counterexample: at scale 1 (inside `(0.1, 5.0)`), translation `(0,0)`,
cursor `(15, 0)` and wheel delta `y = 15`, the emitted pair is
`Scaled(2, (-15, 0))`, and the canvas-local point under the cursor moves from
`(15, 0)` to `(22.5, 0)`: the claimed invariance fails. -/
theorem claim_c1_counterexample :
    MIN_SCALING < (1 : ℚ) ∧ (1 : ℚ) < MAX_SCALING ∧
    editor_own_event 1 0 Interaction.Idle (MouseEvent.WheelScrolled 15) ⟨15, 0⟩ =
      (Interaction.Idle, [Event.Scaled 2 ⟨-15, 0⟩], Status.Captured) ∧
    transform_cursor 1 0 ⟨15, 0⟩ ≠ transform_cursor 2 ⟨-15, 0⟩ ⟨15, 0⟩ := by
  refine ⟨by norm_num [MIN_SCALING], by norm_num [MAX_SCALING], ?_, ?_⟩
  · rw [editor_own_event, if_pos (Or.inr ⟨by norm_num, by norm_num [MAX_SCALING]⟩)]
    have h1 : wheel_new_scaling 1 15 = 2 := by
      norm_num [wheel_new_scaling, MIN_SCALING, MAX_SCALING]
    have h2 : wheel_new_translation 1 0 ⟨15, 0⟩ 15 = ⟨-15, 0⟩ := by
      simp only [wheel_new_translation, h1, Vector.zero_def, Vector.sub_def]
      norm_num
    rw [h1, h2]
  · intro h
    have hx := congrArg Point.x h
    simp only [transform_cursor, Vector.zero_def] at hx
    norm_num at hx

/-- C1 (amended): the wheel-scroll arm emits
`Scaled(new_scale, new_translation)` with the formulas of the claim, but the
canvas-local point under the cursor is only approximately invariant: it moves
by exactly `c · (new_scale − s)² / (s² · new_scale)`, which vanishes only
when the effective scale change is zero. -/
theorem claim_c1_amended (scaling y : ℚ) (translation : Vector) (cursor : Point)
    (hs : scaling ≠ 0) :
    (∀ interaction : Interaction,
      (y < 0 ∧ MIN_SCALING < scaling) ∨ (0 < y ∧ scaling < MAX_SCALING) →
      (editor_own_event scaling translation interaction (MouseEvent.WheelScrolled y)
          cursor).2.1 =
        [Event.Scaled (wheel_new_scaling scaling y)
          (wheel_new_translation scaling translation cursor y)]) ∧
    transform_cursor (wheel_new_scaling scaling y)
        (wheel_new_translation scaling translation cursor y) cursor =
      transform_cursor scaling translation cursor +
        (⟨cursor.x * (wheel_new_scaling scaling y - scaling) ^ 2 /
            (scaling ^ 2 * wheel_new_scaling scaling y),
          cursor.y * (wheel_new_scaling scaling y - scaling) ^ 2 /
            (scaling ^ 2 * wheel_new_scaling scaling y)⟩ : Vector) := by
  constructor
  · intro interaction hcond
    rw [editor_own_event, if_pos hcond]
  · have hpos : (0 : ℚ) < wheel_new_scaling scaling y :=
      lt_of_lt_of_le (by norm_num [MIN_SCALING]) (min_scaling_le_wheel_new_scaling scaling y)
    have hne : wheel_new_scaling scaling y ≠ 0 := ne_of_gt hpos
    set s' := wheel_new_scaling scaling y with hs'
    ext
    · simp only [transform_cursor, wheel_new_translation, ← hs', Vector.sub_def,
        Point.add_vector_def]
      field_simp
      ring
    · simp only [transform_cursor, wheel_new_translation, ← hs', Vector.sub_def,
        Point.add_vector_def]
      field_simp
      ring

/-- Witness for C1 (amended) at scale 1, translation `(0,0)`, cursor
`(15, 0)`, wheel delta 15. -/
theorem claim_c1_witness :
    (1 : ℚ) ≠ 0 ∧
    ((∀ interaction : Interaction,
      ((15 : ℚ) < 0 ∧ MIN_SCALING < 1) ∨ ((0 : ℚ) < 15 ∧ (1 : ℚ) < MAX_SCALING) →
      (editor_own_event 1 0 interaction (MouseEvent.WheelScrolled 15) ⟨15, 0⟩).2.1 =
        [Event.Scaled (wheel_new_scaling 1 15) (wheel_new_translation 1 0 ⟨15, 0⟩ 15)]) ∧
    transform_cursor (wheel_new_scaling 1 15) (wheel_new_translation 1 0 ⟨15, 0⟩ 15)
        ⟨15, 0⟩ =
      transform_cursor 1 0 ⟨15, 0⟩ +
        (⟨15 * (wheel_new_scaling 1 15 - 1) ^ 2 / (1 ^ 2 * wheel_new_scaling 1 15),
          0 * (wheel_new_scaling 1 15 - 1) ^ 2 / (1 ^ 2 * wheel_new_scaling 1 15)⟩ :
          Vector)) :=
  ⟨by norm_num, claim_c1_amended 1 15 0 ⟨15, 0⟩ (by norm_num)⟩

/-- Running a concatenation of editor event blocks runs them in sequence. -/
theorem run_editor_events_append (scaling : ℚ) (translation : Vector) (bounds : Rectangle)
    (interaction : Interaction) (xs ys : List (MouseEvent × Point × Status)) :
    run_editor_events scaling translation bounds interaction (xs ++ ys) =
      ((run_editor_events scaling translation bounds
          (run_editor_events scaling translation bounds interaction xs).1 ys).1,
        (run_editor_events scaling translation bounds interaction xs).2 ++
          (run_editor_events scaling translation bounds
            (run_editor_events scaling translation bounds interaction xs).1 ys).2) := by
  induction xs generalizing interaction with
  | nil => simp [run_editor_events]
  | cons x rest ih =>
      obtain ⟨event, cursor, child_status⟩ := x
      simp only [List.cons_append, run_editor_events, List.append_eq]
      rw [ih]
      simp [List.append_assoc]

/-- When the children ignored the event and the cursor is inside the editor's
bounds, `on_event` runs the editor's own recognizer. -/
theorem editor_on_event_ignored_in (scaling : ℚ) (translation : Vector) (bounds : Rectangle)
    (interaction : Interaction) (event : MouseEvent) (cursor : Point)
    (hc : bounds.contains cursor = true) :
    editor_on_event scaling translation bounds Status.Ignored interaction event cursor =
      editor_own_event scaling translation interaction event cursor := by
  rw [editor_on_event, if_pos]
  exact ⟨rfl, hc⟩

/-- Running a block of in-bounds, child-ignored cursor moves while the canvas
is panning keeps the gesture alive, publishes nothing, and leaves the live
offset at `(last cursor − started_at) · (1 / scaling)`. -/
theorem run_editor_moves (scaling : ℚ) (translation : Vector) (bounds : Rectangle)
    (started_at : Point) (ms : List Point) (v : Point)
    (hms : ∀ m ∈ ms, bounds.contains m = true) :
    run_editor_events scaling translation bounds
      (Interaction.Translating started_at ((v - started_at) * (1 / scaling)))
      (ms.map fun m => (MouseEvent.CursorMoved m, m, Status.Ignored)) =
      (Interaction.Translating started_at ((ms.getLastD v - started_at) * (1 / scaling)),
        []) := by
  induction ms generalizing v with
  | nil => simp [run_editor_events]
  | cons m rest ih =>
      have hm : bounds.contains m = true := hms m (by simp)
      have hrest : ∀ x ∈ rest, bounds.contains x = true := fun x hx =>
        hms x (List.mem_cons_of_mem _ hx)
      simp only [List.map_cons, run_editor_events, List.getLastD_cons,
        editor_on_event_ignored_in scaling translation bounds _ _ m hm]
      simp only [editor_own_event]
      rw [ih m hrest]
      simp

/-- C7: the pan gesture.  A primary press while `Idle` (children ignored,
cursor in bounds) starts `Translating{started_at: cursor, live_offset: 0}`
and consumes; each cursor move while `Translating` sets
`live_offset = (cursor − started_at) / scale` and consumes; a primary
release while `Translating` publishes exactly `Translated(translation +
live_offset)`, resets to `Idle`, and consumes; hence press at `p`, moves
ending at `q`, release emits `Translated(translation + (q − p) / scale)`. -/
theorem claim_c7 (scaling : ℚ) (translation : Vector) (bounds : Rectangle) (cursor : Point)
    (hc : bounds.contains cursor = true) :
    (editor_on_event scaling translation bounds Status.Ignored Interaction.Idle
        (MouseEvent.ButtonPressed Button.Left) cursor =
      (Interaction.Translating cursor 0, [], Status.Captured)) ∧
    (∀ (started_at : Point) (offset : Vector),
      editor_on_event scaling translation bounds Status.Ignored
          (Interaction.Translating started_at offset)
          (MouseEvent.CursorMoved cursor) cursor =
        (Interaction.Translating started_at
            ⟨(cursor.x - started_at.x) / scaling, (cursor.y - started_at.y) / scaling⟩,
          [], Status.Captured)) ∧
    (∀ (started_at : Point) (offset : Vector),
      editor_on_event scaling translation bounds Status.Ignored
          (Interaction.Translating started_at offset)
          (MouseEvent.ButtonReleased Button.Left) cursor =
        (Interaction.Idle, [Event.Translated (translation + offset)], Status.Captured)) ∧
    (∀ (p q : Point) (ms : List Point),
      bounds.contains p = true → bounds.contains q = true →
      (∀ m ∈ ms, bounds.contains m = true) →
      ms.getLastD p = q →
      run_editor_events scaling translation bounds Interaction.Idle
          ((MouseEvent.ButtonPressed Button.Left, p, Status.Ignored) ::
            ((ms.map fun m => (MouseEvent.CursorMoved m, m, Status.Ignored)) ++
              [(MouseEvent.ButtonReleased Button.Left, q, Status.Ignored)])) =
        (Interaction.Idle,
          [Event.Translated (translation +
            ⟨(q.x - p.x) / scaling, (q.y - p.y) / scaling⟩)])) := by
  have hmul : ∀ (a b : Point),
      (a - b) * (1 / scaling) =
        (⟨(a.x - b.x) / scaling, (a.y - b.y) / scaling⟩ : Vector) := by
    intro a b
    simp [Point.sub_point_def, Vector.hmul_def, mul_one_div, div_eq_mul_inv]
  refine ⟨?_, ?_, ?_, ?_⟩
  · rw [editor_on_event_ignored_in scaling translation bounds _ _ cursor hc]
    rfl
  · intro started_at offset
    rw [editor_on_event_ignored_in scaling translation bounds _ _ cursor hc]
    simp only [editor_own_event, hmul]
  · intro started_at offset
    rw [editor_on_event_ignored_in scaling translation bounds _ _ cursor hc]
    rfl
  · intro p q ms hp hq hms hlast
    have hzero : (0 : Vector) = (p - p) * (1 / scaling) := by
      simp [Point.sub_point_def, Vector.hmul_def, Vector.zero_def]
    simp only [run_editor_events,
      editor_on_event_ignored_in scaling translation bounds _ _ p hp]
    simp only [editor_own_event]
    rw [run_editor_events_append, hzero, run_editor_moves scaling translation bounds p ms p hms,
      hlast]
    simp only [run_editor_events,
      editor_on_event_ignored_in scaling translation bounds _ _ q hq]
    simp only [editor_own_event, hmul]
    simp [run_editor_events]

/-- Witness for C7: press at `(10,10)`, one move to `(20,20)`, release there,
in a `100 × 100` editor at scale 1 and zero translation, emits exactly
`Translated((10, 10))`. -/
theorem claim_c7_witness :
    Rectangle.contains ⟨0, 0, 100, 100⟩ ⟨10, 10⟩ = true ∧
    Rectangle.contains ⟨0, 0, 100, 100⟩ ⟨20, 20⟩ = true ∧
    run_editor_events 1 0 ⟨0, 0, 100, 100⟩ Interaction.Idle
        ((MouseEvent.ButtonPressed Button.Left, ⟨10, 10⟩, Status.Ignored) ::
          (([(⟨20, 20⟩ : Point)].map fun m =>
              (MouseEvent.CursorMoved m, m, Status.Ignored)) ++
            [(MouseEvent.ButtonReleased Button.Left, ⟨20, 20⟩, Status.Ignored)])) =
      (Interaction.Idle,
        [Event.Translated ((0 : Vector) +
          ⟨((20 : ℚ) - 10) / 1, ((20 : ℚ) - 10) / 1⟩)]) :=
  have hp : Rectangle.contains ⟨0, 0, 100, 100⟩ ⟨10, 10⟩ = true := by
    norm_num [Rectangle.contains]
  have hq : Rectangle.contains ⟨0, 0, 100, 100⟩ ⟨20, 20⟩ = true := by
    norm_num [Rectangle.contains]
  ⟨hp, hq,
    (claim_c7 1 0 ⟨0, 0, 100, 100⟩ ⟨10, 10⟩ hp).2.2.2 ⟨10, 10⟩ ⟨20, 20⟩ [⟨20, 20⟩]
      hp hq (by intro m hm; simp only [List.mem_singleton] at hm; subst hm; exact hq) rfl⟩

/-- A cursor move publishes no event through a node's `on_event`, whatever
the node's state and whatever the content does. -/
theorem node_move_no_events (self_offset : Vector)
    (content_status : MouseEvent → Point → Status) (layout : NodeLayout)
    (cursor : Point) (index : ℕ) (state : State) (position : Point) :
    (node_on_event self_offset content_status layout cursor index state
      (MouseEvent.CursorMoved position)).2.1 = [] := by
  cases state with
  | Idle =>
      cases h : content_status (MouseEvent.CursorMoved position) cursor <;>
        simp only [node_on_event, h] <;> split <;> rfl
  | Hovered =>
      cases h : content_status (MouseEvent.CursorMoved position) cursor <;>
        simp only [node_on_event, h] <;> split <;> rfl
  | Translating started_at offset => rfl

/-- A block of cursor moves publishes no event through a node's `on_event`,
from any starting state. -/
theorem run_node_moves_no_events (self_offset : Vector)
    (content_status : MouseEvent → Point → Status) (layout : NodeLayout)
    (index : ℕ) (state : State) (ms : List Point) :
    (run_node_events self_offset content_status layout index state
      (ms.map fun m => (MouseEvent.CursorMoved m, m))).2 = [] := by
  induction ms generalizing state with
  | nil => rfl
  | cons m rest ih =>
      simp only [List.map_cons, run_node_events,
        node_move_no_events self_offset content_status layout m index state m,
        List.nil_append]
      exact ih _

/-- Running a block of cursor moves while a node is `Translating` keeps it
translating, publishes nothing, and leaves the live offset at
`last cursor − started_at`. -/
theorem run_node_moves (self_offset : Vector)
    (content_status : MouseEvent → Point → Status) (layout : NodeLayout)
    (index : ℕ) (started_at : Point) (ms : List Point) (v : Point) :
    run_node_events self_offset content_status layout index
      (State.Translating started_at (v - started_at))
      (ms.map fun m => (MouseEvent.CursorMoved m, m)) =
      (State.Translating started_at (ms.getLastD v - started_at), []) := by
  induction ms generalizing v with
  | nil => simp [run_node_events]
  | cons m rest ih =>
      simp only [List.map_cons, run_node_events, node_on_event, List.getLastD_cons]
      rw [ih m]
      simp

/-- C2: from `Hovered`, a primary press at `p` (content ignoring it), any
sequence of cursor moves ending at `p + Δ`, and a primary release publish
exactly one `NodeMoved{index, offset: static_offset + Δ}`; with no moves the
single `NodeMoved` carries the original static offset; and a block of cursor
moves with no press publishes no event at all. -/
theorem claim_c2 (self_offset : Vector) (content_status : MouseEvent → Point → Status)
    (layout : NodeLayout) (index : ℕ) (p : Point) (Δ : Vector) (ms : List Point)
    (hcontent : content_status (MouseEvent.ButtonPressed Button.Left) p = Status.Ignored)
    (hlast : ms.getLastD p = p + Δ) :
    (run_node_events self_offset content_status layout index State.Hovered
        ((MouseEvent.ButtonPressed Button.Left, p) ::
          ((ms.map fun m => (MouseEvent.CursorMoved m, m)) ++
            [(MouseEvent.ButtonReleased Button.Left, p + Δ)]))).2 =
      [Event.NodeMoved index (self_offset + Δ)] ∧
    (∀ (state : State) (moves : List Point),
      (run_node_events self_offset content_status layout index state
        (moves.map fun m => (MouseEvent.CursorMoved m, m))).2 = []) := by
  refine ⟨?_, fun state moves => run_node_moves_no_events _ _ _ _ _ _⟩
  have happend : ∀ (state : State) (xs ys : List (MouseEvent × Point)),
      run_node_events self_offset content_status layout index state (xs ++ ys) =
        ((run_node_events self_offset content_status layout index
            (run_node_events self_offset content_status layout index state xs).1 ys).1,
          (run_node_events self_offset content_status layout index state xs).2 ++
            (run_node_events self_offset content_status layout index
              (run_node_events self_offset content_status layout index state xs).1 ys).2) := by
    intro state xs ys
    induction xs generalizing state with
    | nil => simp [run_node_events]
    | cons x rest ih =>
        obtain ⟨event, cursor⟩ := x
        simp only [List.cons_append, run_node_events, List.append_eq]
        rw [ih]
        simp [List.append_assoc]
  have hzero : (0 : Vector) = p - p := by
    simp [Point.sub_point_def, Vector.zero_def]
  have hdelta : (p + Δ) - p = Δ := by
    ext <;> simp [Point.sub_point_def, Point.add_vector_def]
  simp only [run_node_events, node_on_event, hcontent]
  rw [happend, hzero, run_node_moves, hlast, hdelta]
  simp [run_node_events, node_on_event]

/-- Witness for C2: a node with static offset `(50, 50)`, content `90 × 25`,
hovered; press at `(60, 55)`, moves to `(100, 60)` then `(260, 55)`, release
there: exactly one `NodeMoved` with offset `(50, 50) + (200, 0)`. -/
theorem claim_c2_witness :
    ((fun _ _ => Status.Ignored) (MouseEvent.ButtonPressed Button.Left)
        (⟨60, 55⟩ : Point) = Status.Ignored) ∧
    ([(⟨100, 60⟩ : Point), ⟨260, 55⟩].getLastD ⟨60, 55⟩ =
      (⟨60, 55⟩ : Point) + (⟨200, 0⟩ : Vector)) ∧
    (run_node_events ⟨50, 50⟩ (fun _ _ => Status.Ignored)
        (nodeLayoutOf ⟨50, 50⟩ 90 25) 0 State.Hovered
        ((MouseEvent.ButtonPressed Button.Left, ⟨60, 55⟩) ::
          (([(⟨100, 60⟩ : Point), ⟨260, 55⟩].map fun m =>
              (MouseEvent.CursorMoved m, m)) ++
            [(MouseEvent.ButtonReleased Button.Left,
              (⟨60, 55⟩ : Point) + (⟨200, 0⟩ : Vector))]))).2 =
      [Event.NodeMoved 0 ((⟨50, 50⟩ : Vector) + ⟨200, 0⟩)] :=
  have hlast : [(⟨100, 60⟩ : Point), ⟨260, 55⟩].getLastD ⟨60, 55⟩ =
      (⟨60, 55⟩ : Point) + (⟨200, 0⟩ : Vector) := by
    simp [Point.add_vector_def]
    norm_num
  ⟨rfl, hlast,
    (claim_c2 ⟨50, 50⟩ (fun _ _ => Status.Ignored) (nodeLayoutOf ⟨50, 50⟩ 90 25) 0
      ⟨60, 55⟩ ⟨200, 0⟩ [⟨100, 60⟩, ⟨260, 55⟩] rfl hlast).1⟩

/-- C4 counterexample: a node translating with zero live offset receives a
primary release with the cursor inside its padding band; it publishes
`NodeMoved` and becomes `Hovered`, but the event status it returns is
`Ignored`, not `Captured` — the release is not consumed. -/
theorem claim_c4_counterexample :
    node_on_event 0 (fun _ _ => Status.Ignored) (nodeLayoutOf 0 90 25) ⟨10, 10⟩ 0
        (State.Translating ⟨10, 10⟩ 0) (MouseEvent.ButtonReleased Button.Left) =
      (State.Hovered, [Event.NodeMoved 0 ((0 : Vector) + 0)], Status.Ignored) ∧
    Status.Ignored ≠ Status.Captured := by
  constructor
  · have hin : Rectangle.contains (nodeLayoutOf 0 90 25).bounds ⟨10, 10⟩ = true := by
      norm_num [Rectangle.contains, nodeLayoutOf, Vector.zero_x, Vector.zero_y]
    have hout : Rectangle.contains (nodeLayoutOf 0 90 25).content_bounds ⟨10, 10⟩ = false := by
      norm_num [Rectangle.contains, nodeLayoutOf, Vector.zero_x, Vector.zero_y]
    simp [node_on_event, hin, hout]
  · intro h
    exact Status.noConfusion h

/-- C4 (amended): on a primary release while `Translating`, a node publishes
exactly one `NodeMoved{index, offset: static_offset + live_offset}` and
transitions to `Hovered` when the cursor is in its (unadjusted) padding band
and to `Idle` otherwise — but its event status is `Ignored`: the release is
not consumed. -/
theorem claim_c4_amended (self_offset : Vector)
    (content_status : MouseEvent → Point → Status) (layout : NodeLayout)
    (cursor : Point) (index : ℕ) (started_at : Point) (offset : Vector) :
    node_on_event self_offset content_status layout cursor index
        (State.Translating started_at offset) (MouseEvent.ButtonReleased Button.Left) =
      ((if layout.bounds.contains cursor && !layout.content_bounds.contains cursor
          then State.Hovered else State.Idle),
        [Event.NodeMoved index (self_offset + offset)], Status.Ignored) := by
  rfl

/-- C10: the `Hovered`-versus-`Idle` decision on releasing a drag tests the
cursor against the node's original layout bounds, never the drag-shifted
ones; so when the net drag moved the cursor out of the pre-drag padding band,
the node ends `Idle` even if the cursor sits over the padding band of the
node at its dragged position. -/
theorem claim_c10 (self_offset : Vector)
    (content_status : MouseEvent → Point → Status) (layout : NodeLayout)
    (cursor : Point) (index : ℕ) (started_at : Point) (offset : Vector) :
    ((node_on_event self_offset content_status layout cursor index
        (State.Translating started_at offset)
        (MouseEvent.ButtonReleased Button.Left)).1 =
      (if layout.bounds.contains cursor && !layout.content_bounds.contains cursor
        then State.Hovered else State.Idle)) ∧
    ((layout.bounds.contains cursor && !layout.content_bounds.contains cursor) = false →
      (((State.Translating started_at offset).adjusted_bounds layout.bounds).contains
            cursor &&
          !(layout.content_bounds + offset).contains cursor) = true →
      (node_on_event self_offset content_status layout cursor index
        (State.Translating started_at offset)
        (MouseEvent.ButtonReleased Button.Left)).1 = State.Idle) := by
  constructor
  · rfl
  · intro hband _
    show (if layout.bounds.contains cursor && !layout.content_bounds.contains cursor
        then State.Hovered else State.Idle) = State.Idle
    rw [hband]
    rfl

/-- Witness for C10: a node at the origin (`100 × 50` outer bounds,
content `90 × 25`) dragged by `(200, 0)`; release at `(210, 10)`, which lies
in the dragged node's padding band but outside the original one: the node
ends `Idle`. -/
theorem claim_c10_witness :
    ((nodeLayoutOf 0 90 25).bounds.contains ⟨210, 10⟩ &&
      !(nodeLayoutOf 0 90 25).content_bounds.contains ⟨210, 10⟩) = false ∧
    (((State.Translating ⟨10, 10⟩ ⟨200, 0⟩).adjusted_bounds
          (nodeLayoutOf 0 90 25).bounds).contains ⟨210, 10⟩ &&
        !((nodeLayoutOf 0 90 25).content_bounds + (⟨200, 0⟩ : Vector)).contains ⟨210, 10⟩) = true ∧
    (node_on_event 0 (fun _ _ => Status.Ignored) (nodeLayoutOf 0 90 25) ⟨210, 10⟩ 0
      (State.Translating ⟨10, 10⟩ ⟨200, 0⟩)
      (MouseEvent.ButtonReleased Button.Left)).1 = State.Idle :=
  have h1 : ((nodeLayoutOf 0 90 25).bounds.contains ⟨210, 10⟩ &&
      !(nodeLayoutOf 0 90 25).content_bounds.contains ⟨210, 10⟩) = false := by
    norm_num [Rectangle.contains, nodeLayoutOf, Vector.zero_x, Vector.zero_y]
  have h2 : (((State.Translating ⟨10, 10⟩ ⟨200, 0⟩).adjusted_bounds
        (nodeLayoutOf 0 90 25).bounds).contains ⟨210, 10⟩ &&
      !((nodeLayoutOf 0 90 25).content_bounds + (⟨200, 0⟩ : Vector)).contains ⟨210, 10⟩) = true := by
    norm_num [Rectangle.contains, nodeLayoutOf, State.adjusted_bounds,
      Rectangle.translate_def, Vector.zero_x, Vector.zero_y]
  ⟨h1, h2,
    (claim_c10 0 (fun _ _ => Status.Ignored) (nodeLayoutOf 0 90 25) ⟨210, 10⟩ 0
      ⟨10, 10⟩ ⟨200, 0⟩).2 h1 h2⟩

/-- C5 counterexample: a cursor move with the canvas `Idle`, no child
consuming, and the raw cursor inside the editor's bounds leaves the editor's
interaction state unchanged and publishes nothing — so "changes state or
emits" does not follow from "no child consumed and cursor in bounds", and
the claimed equivalence fails. -/
theorem claim_c5_counterexample :
    (Status.Ignored = Status.Ignored ∧
      Rectangle.contains ⟨0, 0, 100, 100⟩ ⟨5, 5⟩ = true) ∧
    editor_on_event 1 0 ⟨0, 0, 100, 100⟩ Status.Ignored Interaction.Idle
        (MouseEvent.CursorMoved ⟨5, 5⟩) ⟨5, 5⟩ =
      (Interaction.Idle, [], Status.Ignored) := by
  have hc : Rectangle.contains ⟨0, 0, 100, 100⟩ ⟨5, 5⟩ = true := by
    norm_num [Rectangle.contains]
  refine ⟨⟨rfl, hc⟩, ?_⟩
  rw [editor_on_event_ignored_in 1 0 ⟨0, 0, 100, 100⟩ Interaction.Idle
    (MouseEvent.CursorMoved ⟨5, 5⟩) ⟨5, 5⟩ hc]
  rfl

/-- C5 (amended): the editor's own recognizer can act only when no child
consumed the event and the raw cursor is inside the editor's bounds — any
change of the editor's interaction state or any publication implies that
condition, and when the condition fails the state, the publications, and the
propagated child status are exactly untouched.  The converse of the claim
does not hold (see the counterexample): the condition gives the recognizer a
chance but does not force a change or an emission. -/
theorem claim_c5_amended (scaling : ℚ) (translation : Vector) (bounds : Rectangle)
    (child_status : Status) (interaction : Interaction) (event : MouseEvent)
    (cursor : Point) :
    ((child_status ≠ Status.Ignored ∨ bounds.contains cursor = false) →
      editor_on_event scaling translation bounds child_status interaction event cursor =
        (interaction, [], child_status)) ∧
    (((editor_on_event scaling translation bounds child_status interaction event
          cursor).1 ≠ interaction ∨
      (editor_on_event scaling translation bounds child_status interaction event
          cursor).2.1 ≠ []) →
      child_status = Status.Ignored ∧ bounds.contains cursor = true) := by
  constructor
  · intro h
    rw [editor_on_event, if_neg]
    rintro ⟨h1, h2⟩
    rcases h with h | h
    · exact h h1
    · rw [h] at h2
      exact Bool.false_ne_true h2
  · intro h
    by_cases hcond : child_status = Status.Ignored ∧ bounds.contains cursor = true
    · exact hcond
    · exfalso
      have heq : editor_on_event scaling translation bounds child_status interaction
          event cursor = (interaction, [], child_status) := by
        rw [editor_on_event, if_neg]
        exact fun hc => hcond ⟨hc.1, hc.2⟩
      rcases h with h | h
      · exact h (by rw [heq])
      · exact h (by rw [heq])

/-- Witness for C5 (amended): with a child having consumed the event, a press
inside the bounds leaves the editor's state and publications untouched. -/
theorem claim_c5_witness :
    (Status.Captured ≠ Status.Ignored ∨
      Rectangle.contains ⟨0, 0, 100, 100⟩ ⟨5, 5⟩ = false) ∧
    editor_on_event 1 0 ⟨0, 0, 100, 100⟩ Status.Captured Interaction.Idle
        (MouseEvent.ButtonPressed Button.Left) ⟨5, 5⟩ =
      (Interaction.Idle, [], Status.Captured) :=
  have h : Status.Captured ≠ Status.Ignored ∨
      Rectangle.contains ⟨0, 0, 100, 100⟩ ⟨5, 5⟩ = false :=
    Or.inl (fun hs => Status.noConfusion hs)
  ⟨h, (claim_c5_amended 1 0 ⟨0, 0, 100, 100⟩ Status.Captured Interaction.Idle
    (MouseEvent.ButtonPressed Button.Left) ⟨5, 5⟩).1 h⟩

theorem mk_connector_to_index (scaling : ℚ)
    (translation pan_offset frame_offset : Vector) (from_index to_index : ℕ)
    (from_bounds to_bounds : Rectangle) :
    (mk_connector scaling translation pan_offset frame_offset from_index to_index
      from_bounds to_bounds).to_index = to_index := rfl

/-- C6: exactly the `edges` entries that are valid indices into the node list
produce a connector — one connector per entry, in order, with self-loops and
duplicates each drawn independently and out-of-range entries skipped; in
particular, with 3 nodes and node 0's `edges = [5]`, nothing is drawn. -/
theorem claim_c6 :
    (∀ (nodes : List NodeRender) (scaling : ℚ)
        (translation pan_offset frame_offset : Vector) (from_index : ℕ)
        (from_node : NodeRender),
      (connectors_from nodes scaling translation pan_offset frame_offset from_index
          from_node).map Connector.to_index =
        from_node.edges.filter fun j => j < nodes.length) ∧
    draw_connectors ⟨0, 0, 800, 600⟩ 1 0 Interaction.Idle
        [⟨[5], ⟨0, 0, 10, 10⟩, State.Idle⟩, ⟨[], ⟨20, 0, 10, 10⟩, State.Idle⟩,
          ⟨[], ⟨40, 0, 10, 10⟩, State.Idle⟩] = [] := by
  constructor
  · intro nodes scaling translation pan_offset frame_offset from_index from_node
    obtain ⟨edges, bounds, state⟩ := from_node
    induction edges with
    | nil => rfl
    | cons j rest ih =>
        simp only [connectors_from, List.filterMap_cons] at ih ⊢
        cases h : nodes[j]? with
        | none =>
            have hj : ¬ j < nodes.length := by
              have := List.getElem?_eq_none_iff.mp h
              omega
            simp [hj, ih]
        | some to_node =>
            have hj : j < nodes.length := by
              rcases Nat.lt_or_ge j nodes.length with h' | h'
              · exact h'
              · rw [List.getElem?_eq_none_iff.mpr h'] at h
                exact Option.noConfusion h
            simp [hj, ih, mk_connector_to_index]
  · rfl

/-- C8: every drawn edge starts at the vertical-center of the source node's
right edge and ends at the vertical-center of the target node's left edge,
both taken on the node's adjusted bounds (shifted by its live drag offset
when `Translating`, unshifted otherwise) and mapped to screen space by
`p ↦ (p + translation + live_pan_offset) * scale` (the frame being anchored
at the editor's padded bounds); the control points sit horizontally
`max(30, (end_x − start_x)/2) * scale` from the endpoints. -/
theorem claim_c8 (editor_bounds : Rectangle) (scaling : ℚ) (translation : Vector)
    (interaction : Interaction) (nodes : List NodeRender) (conn : Connector)
    (hconn : conn ∈ draw_connectors editor_bounds scaling translation interaction nodes) :
    ∃ from_node to_node : NodeRender,
      nodes[conn.from_index]? = some from_node ∧
      nodes[conn.to_index]? = some to_node ∧
      conn.to_index ∈ from_node.edges ∧
      (let from_bounds := match from_node.state with
        | State.Translating _ offset => from_node.bounds + offset
        | _ => from_node.bounds
      let to_bounds := match to_node.state with
        | State.Translating _ offset => to_node.bounds + offset
        | _ => to_node.bounds
      let frame_offset : Vector := ⟨editor_bounds.x + 1, editor_bounds.y + 1⟩
      let screen : Point → Point := fun p =>
        ⟨(p.x + translation.x + interaction.offset.x) * scaling,
          (p.y + translation.y + interaction.offset.y) * scaling⟩
      let start_anchor : Point :=
        ⟨from_bounds.x + from_bounds.width, from_bounds.y + from_bounds.height / 2⟩
      let end_anchor : Point := ⟨to_bounds.x, to_bounds.y + to_bounds.height / 2⟩
      let control_offset : ℚ := max 30 ((end_anchor.x - start_anchor.x) / 2) * scaling
      conn.start + frame_offset = screen start_anchor ∧
      conn.end_point + frame_offset = screen end_anchor ∧
      conn.control_a = ⟨conn.start.x + control_offset, conn.start.y⟩ ∧
      conn.control_b = ⟨conn.end_point.x - control_offset, conn.end_point.y⟩) := by
  rw [draw_connectors] at hconn
  simp only [List.mem_flatten, List.mem_map] at hconn
  obtain ⟨l, ⟨fi, hfi, rfl⟩, hmem⟩ := hconn
  obtain ⟨from_index, from_node⟩ := fi
  rw [List.mk_mem_enum_iff_getElem?] at hfi
  rw [connectors_from] at hmem
  simp only [List.mem_filterMap] at hmem
  obtain ⟨to_index, hto_mem, hsome⟩ := hmem
  cases htn : nodes[to_index]? with
  | none =>
      rw [htn] at hsome
      exact Option.noConfusion hsome
  | some to_node =>
      rw [htn] at hsome
      have hconn_eq := Option.some.inj hsome
      subst hconn_eq
      refine ⟨from_node, to_node, hfi, htn, hto_mem, ?_⟩
      cases hfs : from_node.state <;> cases hts : to_node.state <;>
        refine ⟨?_, ?_, ?_, ?_⟩ <;>
          · ext <;>
              simp [mk_connector, transform_point, pad, State.adjusted_bounds, hfs, hts,
                Rectangle.center_y, Rectangle.translate_def, Point.add_vector_def,
                Point.sub_vector_def, max_comm]

/-- Witness for C8: a single node with bounds `(0,0,2,2)` and a self-loop, in
a `10 × 10` editor at scale 1 with zero translation and no pan: the one drawn
connector runs from `(1, 0)` to `(-1, 0)` in frame coordinates with control
points `(31, 0)` and `(-31, 0)`, and satisfies the anchor/transform/control
equations. -/
theorem claim_c8_witness :
    ((⟨0, 0, ⟨1, 0⟩, ⟨-1, 0⟩, ⟨31, 0⟩, ⟨-31, 0⟩⟩ : Connector) ∈
      draw_connectors ⟨0, 0, 10, 10⟩ 1 0 Interaction.Idle
        [⟨[0], ⟨0, 0, 2, 2⟩, State.Idle⟩]) ∧
    (∃ from_node to_node : NodeRender,
      [(⟨[0], ⟨0, 0, 2, 2⟩, State.Idle⟩ : NodeRender)][(0 : ℕ)]? = some from_node ∧
      [(⟨[0], ⟨0, 0, 2, 2⟩, State.Idle⟩ : NodeRender)][(0 : ℕ)]? = some to_node ∧
      (0 : ℕ) ∈ from_node.edges ∧
      (let from_bounds := match from_node.state with
        | State.Translating _ offset => from_node.bounds + offset
        | _ => from_node.bounds
      let to_bounds := match to_node.state with
        | State.Translating _ offset => to_node.bounds + offset
        | _ => to_node.bounds
      let frame_offset : Vector := ⟨0 + 1, 0 + 1⟩
      let screen : Point → Point := fun p =>
        ⟨(p.x + (0 : Vector).x + (Interaction.Idle).offset.x) * 1,
          (p.y + (0 : Vector).y + (Interaction.Idle).offset.y) * 1⟩
      let start_anchor : Point :=
        ⟨from_bounds.x + from_bounds.width, from_bounds.y + from_bounds.height / 2⟩
      let end_anchor : Point := ⟨to_bounds.x, to_bounds.y + to_bounds.height / 2⟩
      let control_offset : ℚ := max 30 ((end_anchor.x - start_anchor.x) / 2) * 1
      (⟨1, 0⟩ : Point) + frame_offset = screen start_anchor ∧
      (⟨-1, 0⟩ : Point) + frame_offset = screen end_anchor ∧
      (⟨31, 0⟩ : Point) = ⟨(1 : ℚ) + control_offset, 0⟩ ∧
      (⟨-31, 0⟩ : Point) = ⟨(-1 : ℚ) - control_offset, 0⟩)) :=
  have hmem : (⟨0, 0, ⟨1, 0⟩, ⟨-1, 0⟩, ⟨31, 0⟩, ⟨-31, 0⟩⟩ : Connector) ∈
      draw_connectors ⟨0, 0, 10, 10⟩ 1 0 Interaction.Idle
        [⟨[0], ⟨0, 0, 2, 2⟩, State.Idle⟩] := by
    have hdc : draw_connectors ⟨0, 0, 10, 10⟩ 1 0 Interaction.Idle
        [⟨[0], ⟨0, 0, 2, 2⟩, State.Idle⟩] =
        [⟨0, 0, ⟨1, 0⟩, ⟨-1, 0⟩, ⟨31, 0⟩, ⟨-31, 0⟩⟩] := by
      norm_num [draw_connectors, connectors_from, mk_connector, transform_point, pad,
        State.adjusted_bounds, Rectangle.center_y, Interaction.offset,
        Point.add_vector_def, Point.sub_vector_def, Vector.zero_x, Vector.zero_y,
        List.filterMap_cons, max_def]
    rw [hdc]
    exact List.mem_singleton.mpr rfl
  ⟨hmem, claim_c8 ⟨0, 0, 10, 10⟩ 1 0 Interaction.Idle
    [⟨[0], ⟨0, 0, 2, 2⟩, State.Idle⟩] ⟨0, 0, ⟨1, 0⟩, ⟨-1, 0⟩, ⟨31, 0⟩, ⟨-31, 0⟩⟩ hmem⟩

/-- The host's per-node edge rewrite — filter out the deleted index, then
decrement the larger indices — is the entrywise renumbering law. -/
theorem filter_map_eq_filterMap_renumber (index : ℕ) (edges : List ℕ) :
    ((edges.filter fun i => i ≠ index).map fun i => if index < i then i - 1 else i) =
      edges.filterMap (renumber_entry index) := by
  induction edges with
  | nil => rfl
  | cons j rest ih =>
      simp only [ne_eq, decide_not] at ih
      by_cases hj : j = index
      · simp [List.filter_cons, hj, renumber_entry, ih]
      · by_cases hlt : index < j
        · simp [List.filter_cons, hj, renumber_entry, hlt, ih]
        · simp [List.filter_cons, hj, renumber_entry, hlt, ih]

/-- C9: deleting node `k` removes exactly the `k`-th node and rewrites every
remaining node's `edges` entrywise — entries equal to `k` dropped, entries
greater than `k` decremented, the rest unchanged, order preserved — and the
node count drops by one. -/
theorem claim_c9 (nodes : List HostNode) (k : ℕ) (hk : k < nodes.length) :
    delete_node nodes k =
      (nodes.take k ++ nodes.drop (k + 1)).map (fun node =>
        { node with edges := node.edges.filterMap (renumber_entry k) }) ∧
    (delete_node nodes k).length = nodes.length - 1 := by
  constructor
  · rw [delete_node, List.eraseIdx_eq_take_drop_succ]
    refine List.map_congr_left fun node _ => ?_
    rw [filter_map_eq_filterMap_renumber]
  · rw [delete_node, List.length_map, List.length_eraseIdx, if_pos hk]

/-- Witness for C9: the example application's four-node graph with edge lists
`[1]`, `[2, 3]`, `[3]`, `[]`; deleting node 2 yields three nodes with edge
lists `[1]`, `[2]`, `[]`. -/
theorem claim_c9_witness :
    2 < ([⟨0, [1]⟩, ⟨0, [2, 3]⟩, ⟨0, [3]⟩, ⟨0, []⟩] : List HostNode).length ∧
    (delete_node [⟨0, [1]⟩, ⟨0, [2, 3]⟩, ⟨0, [3]⟩, ⟨0, []⟩] 2 =
        (([⟨0, [1]⟩, ⟨0, [2, 3]⟩, ⟨0, [3]⟩, ⟨0, []⟩] : List HostNode).take 2 ++
          ([⟨0, [1]⟩, ⟨0, [2, 3]⟩, ⟨0, [3]⟩, ⟨0, []⟩] : List HostNode).drop 3).map
          (fun node => { node with edges := node.edges.filterMap (renumber_entry 2) }) ∧
      (delete_node [⟨0, [1]⟩, ⟨0, [2, 3]⟩, ⟨0, [3]⟩, ⟨0, []⟩] 2).length =
        ([⟨0, [1]⟩, ⟨0, [2, 3]⟩, ⟨0, [3]⟩, ⟨0, []⟩] : List HostNode).length - 1) :=
  ⟨by decide, claim_c9 [⟨0, [1]⟩, ⟨0, [2, 3]⟩, ⟨0, [3]⟩, ⟨0, []⟩] 2 (by decide)⟩

end GraphEditor
